import Mathlib

/-!
Verification development for the Numerical-Integrator repository: an RPN
expression compiler (`src/parser/expression_parser.c`) and a numerical
integration engine (`src/integrator/integral.c`, `src/controls/controls.c`).

The C `double` type is modelled by the real numbers `ℝ`; `libm` functions are
modelled by their Mathlib counterparts (`Real.sin`, `Real.log`, `Real.rpow`,
…).  Fallible C control flow that calls `exit(1)` is modelled by the
`ProcessExit` error type threaded through `Except`.

The node type and the bodies of the recursive functions are stated once over
an abstract carrier (a linear ordered field standing for the ideal value
type of `double`); every function named after a C function is its
instantiation at `ℝ`, and all claim theorems are about those `ℝ`-level
functions.
-/

namespace NumericalIntegrator

/-- STACK_SIZE from expression_parser.h: capacity of the bounded parse stack. -/
def STACK_SIZE : Nat := 50

/-- OPERATORS from expression_parser.h: the supported operator characters. -/
def OPERATORS : String := "+-*/^"

/-- cot from expression_parser.c: `1 / tan(x)`. -/
noncomputable def cot (x : ℝ) : ℝ := 1 / Real.tan x

/-- Node from expression_parser.h: tagged union over the four `NodeType`
variants, with the value type `α` standing for the C `double` (instantiated
at `ℝ` everywhere below).  Constructor names follow the `NodeType` enum.
The C struct stores `left`/`right` child pointers on every node; variants
that never have a child pointer assigned (`NODE_VARIABLE`, `NODE_NUMBER`,
and the `right` slot of `NODE_FUNCTION`) keep them null forever, so those
slots are omitted here, and the remaining (nullable) pointers are
`Option (Node α)`. -/
inductive Node (α : Type) : Type where
  | NODE_VARIABLE (name : Char)
  | NODE_NUMBER (value : α)
  | NODE_FUNCTION (name : String) (func : α → α) (left : Option (Node α))
  | NODE_OPERATOR (symbol : Char) (left : Option (Node α)) (right : Option (Node α))

/-- Each constructor records one `exit(1)` call site in expression_parser.c:
`push` (stack overflow), `pop` (stack underflow) and the `strtod` check in
`parse` (invalid token).  Reaching any of them terminates the host process. -/
inductive ProcessExit : Type where
  | stackOverflow
  | stackUnderflow
  | invalidToken (token : String)
deriving DecidableEq, Repr

/-- Every one of the modelled `exit` calls passes status 1 to `exit`. -/
def ProcessExit.exitStatus : ProcessExit → Nat := fun _ => 1

/-- push from expression_parser.c: fails (the C code prints and exits) when
`stack->top == STACK_SIZE - 1`, i.e. when the stack already holds
`STACK_SIZE` nodes; otherwise stores the node at the new top.  The stack is
modelled as a list whose head is the top slot. -/
def push {α : Type} (stack : List (Node α)) (node : Node α) :
    Except ProcessExit (List (Node α)) :=
  if stack.length = STACK_SIZE then .error .stackOverflow
  else .ok (node :: stack)

/-- pop from expression_parser.c: fails (prints and exits) when
`stack->top < 0`; otherwise returns the top node and the shrunk stack. -/
def pop {α : Type} (stack : List (Node α)) :
    Except ProcessExit (Node α × List (Node α)) :=
  match stack with
  | [] => .error .stackUnderflow
  | n :: rest => .ok (n, rest)

/-- FUNCTIONS from expression_parser.c: the name → operation table. -/
noncomputable def FUNCTIONS : List (String × (ℝ → ℝ)) :=
  [("sin", Real.sin), ("cos", Real.cos), ("tg", Real.tan), ("ctg", cot),
   ("ln", Real.log), ("exp", Real.exp)]

/-- The scan loop of find_function: walk the entry list, returning the
operation of the first entry whose name `strcmp`-equals the token. -/
def lookupFunction {β : Type} : List (String × β) → String → Option β
  | [], _ => none
  | e :: rest, name => if e.1 = name then some e.2 else lookupFunction rest name

/-- find_function from expression_parser.c: linear scan of `FUNCTIONS`
comparing the token against each entry name with `strcmp`. -/
noncomputable def find_function (name : String) : Option (ℝ → ℝ) :=
  lookupFunction FUNCTIONS name

/-- strpbrk(OPERATORS, token) != NULL from `parse`: `strpbrk(s1, s2)` scans
`s1` for the first character that also occurs in `s2`, so the test succeeds
exactly when the token contains at least one operator character anywhere. -/
def strpbrkSome (s1 s2 : String) : Bool :=
  s1.data.any (fun c => s2.data.contains c)

/-- Value of a digit character, for the `strtod` model. -/
def charDigit (c : Char) : Nat := c.toNat - 48

/-- Accumulates a decimal digit list into a natural number. -/
def digitsVal (l : List Char) : Nat := l.foldl (fun a c => 10 * a + charDigit c) 0

/-- Optional leading sign of a `strtod` field: consumed sign flag plus the
remaining characters. -/
def splitSign (cs : List Char) : Bool × List Char :=
  match cs with
  | [] => (false, [])
  | c :: rest =>
    if c = '-' then (true, rest)
    else if c = '+' then (false, rest)
    else (false, c :: rest)

/-- Decimal subset of the C library `strtod` used by `parse`: optional sign,
integer digits, optional fraction, optional `e`/`E` exponent with optional
sign; at least one significand digit is required, and if an exponent marker
is present at least one exponent digit is required.  The parsed value is
returned as a pair `(m, p)` denoting `m · 10^p`, with the significand
digits accumulated in `m` and the fraction length folded into `p`.  The
result is `none` exactly when no conversion occurs or the token is not
completely consumed (the `*endptr != '\0'` check in `parse`).  Hexadecimal
and `inf`/`nan` forms of `strtod` are outside the model; no token in this
development uses them. -/
def strtodParts (s : String) : Option (ℤ × ℤ) :=
  let (neg, cs1) := splitSign s.data
  let ds := cs1.takeWhile Char.isDigit
  let cs2 := cs1.dropWhile Char.isDigit
  let (fs, cs3) :=
    match cs2 with
    | [] => ([], ([] : List Char))
    | c :: rest =>
      if c = '.' then (rest.takeWhile Char.isDigit, rest.dropWhile Char.isDigit)
      else ([], c :: rest)
  if ds.length + fs.length = 0 then none
  else
    let mantissa : ℤ := (digitsVal ds * 10 ^ fs.length + digitsVal fs : ℕ)
    let signed : ℤ := if neg then -mantissa else mantissa
    match cs3 with
    | [] => some (signed, -(fs.length : ℤ))
    | e :: rest =>
      if e = 'e' ∨ e = 'E' then
        let (eneg, rest1) := splitSign rest
        let es := rest1.takeWhile Char.isDigit
        let rest2 := rest1.dropWhile Char.isDigit
        if es.length = 0 ∨ rest2 ≠ [] then none
        else some (signed, (if eneg then -1 else 1) * (digitsVal es : ℤ) - (fs.length : ℤ))
      else none

/-- The `strtod` model at type `ℝ`, the type of `Number.value`: the decoded
`(m, p)` pair denotes the real value `m · 10^p`. -/
noncomputable def strtodModel (s : String) : Option ℝ :=
  (strtodParts s).map (fun p => (p.1 : ℝ) * (10 : ℝ) ^ p.2)

/-- token[0], the character stored by `create_operator` in `parse`. -/
def tokenHead (t : String) : Char := t.data.headD 'x'

/-- One iteration of the token loop in `parse` (expression_parser.c): the
classification chain tries, in order, the variable symbol, the operator
test, the function table, and finally `strtod`; each branch fuses the
corresponding `create_*` call with the child assignments and the `push`. -/
noncomputable def parseStep (stack : List (Node ℝ)) (token : String) :
    Except ProcessExit (List (Node ℝ)) :=
  if token = "x" then
    push stack (.NODE_VARIABLE 'x')
  else if strpbrkSome OPERATORS token then do
    let (right, s1) ← pop stack
    let (left, s2) ← pop s1
    push s2 (.NODE_OPERATOR (tokenHead token) (some left) (some right))
  else
    match find_function token with
    | some operation => do
      let (left, s1) ← pop stack
      push s1 (.NODE_FUNCTION token operation (some left))
    | none =>
      match strtodModel token with
      | some value => push stack (.NODE_NUMBER value)
      | none => .error (.invalidToken token)

/-- The token loop of `parse`, starting from the empty stack
(`stack.top = -1`), with the expression already split into its
whitespace-separated tokens (the `strtok` calls; `strtok` only ever yields
nonempty tokens). -/
noncomputable def parseStack (tokens : List String) :
    Except ProcessExit (List (Node ℝ)) :=
  tokens.foldlM parseStep []

/-- parse from expression_parser.c: runs the token loop and then returns
`stack.data[0]`, the bottom slot of the stack.  Because every token leaves
the stack nonempty, after a nonempty token list slot 0 holds the bottom of
the remaining stack (the last element of the list model); for an empty token
list slot 0 was never written and the C function returns an indeterminate
pointer, modelled as `none`. -/
noncomputable def parse (tokens : List String) :
    Except ProcessExit (Option (Node ℝ)) :=
  (parseStack tokens).map (fun stack => stack.getLast?)

/-- The body of evaluate from expression_parser.c over the abstract
carrier: recursive reduction of the tree at a variable value.  A null node
evaluates to `0.0`; `pw` is the binary `^` operation (the `libm` `pow`).
The `default` branches of the two C switches (unknown operator symbol,
unknown node tag) call `exit(1)`; they are modelled as `0.0` and no theorem
below rests on them. -/
def evaluateWith {α : Type} [DivisionRing α] (pw : α → α → α) :
    Option (Node α) → α → α
  | none, _ => 0
  | some (.NODE_VARIABLE _), x => x
  | some (.NODE_NUMBER v), _ => v
  | some (.NODE_FUNCTION _ func left), x => func (evaluateWith pw left x)
  | some (.NODE_OPERATOR symbol left right), x =>
    if symbol = '+' then evaluateWith pw left x + evaluateWith pw right x
    else if symbol = '-' then evaluateWith pw left x - evaluateWith pw right x
    else if symbol = '*' then evaluateWith pw left x * evaluateWith pw right x
    else if symbol = '/' then evaluateWith pw left x / evaluateWith pw right x
    else if symbol = '^' then pw (evaluateWith pw left x) (evaluateWith pw right x)
    else 0

/-- evaluate from expression_parser.c at the `double` carrier `ℝ`, with `^`
the real power function `Real.rpow` (the `libm` `pow`). -/
noncomputable def evaluate : Option (Node ℝ) → ℝ → ℝ :=
  evaluateWith Real.rpow

/-- The grid walk shared by find_infimum and find_supremum
(integral.c): `while (x <= end) { value = evaluate(expr, x); update; x += step; }`
with the running extremum `acc` seeded by the caller.  `upd` is the loop
body's update of the running extremum from the sampled value (`min` for the
infimum, `max` for the supremum).  The conjunct `0 < step` is a termination
guard: when `step ≤ 0` and `x ≤ e` the C loop never terminates, and no
theorem below uses that region. -/
def extremumLoop {α : Type} [LinearOrderedField α] [FloorRing α]
    (upd : α → α → α) (f : α → α) (e step : α) (x acc : α) : α :=
  if h : x ≤ e ∧ 0 < step then
    extremumLoop upd f e step (x + step) (upd acc (f x))
  else acc
termination_by (⌈(e - x) / step⌉ + 1).toNat
decreasing_by
  have hstep : (0:α) < step := h.2
  have hle : x ≤ e := h.1
  have hnn : (0:α) ≤ (e - x) / step := div_nonneg (by linarith) hstep.le
  have hceil : (0:ℤ) ≤ ⌈(e - x) / step⌉ := Int.ceil_nonneg hnn
  have heq : (e - (x + step)) / step = (e - x) / step - 1 := by
    field_simp
    ring
  rw [heq, Int.ceil_sub_one]
  omega

/-- The accumulation loop shared by calculate_Riemann_sum,
calculate_lower_Darboux_sum and calculate_upper_Darboux_sum (integral.c):
`x = start; while (x < end) { sum += g(x) * dx; x += dx; }`, where `g` is the
per-subinterval sample of the respective function.  As with `extremumLoop`,
the conjunct `0 < dx` is a termination guard for a region (`dx ≤ 0`,
`x < e`) where the C loop never terminates and which no theorem uses. -/
def sumWhile {α : Type} [LinearOrderedField α] [FloorRing α]
    (g : α → α) (e dx x : α) : α :=
  if h : x < e ∧ 0 < dx then g x * dx + sumWhile g e dx (x + dx) else 0
termination_by (⌈(e - x) / dx⌉).toNat
decreasing_by
  have hdx : (0:α) < dx := h.2
  have hpos : (0:α) < (e - x) / dx := div_pos (by linarith [h.1]) hdx
  have hceil : (0:ℤ) < ⌈(e - x) / dx⌉ := Int.ceil_pos.mpr hpos
  have heq : (e - (x + dx)) / dx = (e - x) / dx - 1 := by
    field_simp
    ring
  rw [heq, Int.ceil_sub_one]
  omega

/-- find_infimum from integral.c: checks the expression for null (the C code
prints and exits; modelled as the junk value `0`, never relied upon), seeds
the running infimum with `evaluate(expr, start)`, then walks the grid
updating with `if (value < infimum) infimum = value;`, i.e. `min`. -/
noncomputable def find_infimum (expr : Option (Node ℝ)) (start e step : ℝ) : ℝ :=
  match expr with
  | none => 0
  | some _ =>
    extremumLoop (fun acc v => if v < acc then v else acc)
      (evaluate expr) e step start (evaluate expr start)

/-- find_supremum from integral.c: same shape as find_infimum with the
update `if (value > supremum) supremum = value;`, i.e. `max`. -/
noncomputable def find_supremum (expr : Option (Node ℝ)) (start e step : ℝ) : ℝ :=
  match expr with
  | none => 0
  | some _ =>
    extremumLoop (fun acc v => if v > acc then v else acc)
      (evaluate expr) e step start (evaluate expr start)

/-- calculate_Riemann_sum from integral.c: left-edge sampling of the
expression itself on each subinterval of width `dx`. -/
noncomputable def calculate_Riemann_sum (expression : Option (Node ℝ))
    (start e dx : ℝ) : ℝ :=
  sumWhile (fun x => evaluate expression x) e dx start

/-- calculate_lower_Darboux_sum from integral.c: each subinterval
contributes `find_infimum(expression, x, x + dx, step) * dx`. -/
noncomputable def calculate_lower_Darboux_sum (expression : Option (Node ℝ))
    (start e dx step : ℝ) : ℝ :=
  sumWhile (fun x => find_infimum expression x (x + dx) step) e dx start

/-- calculate_upper_Darboux_sum from integral.c: each subinterval
contributes `find_supremum(expression, x, x + dx, step) * dx`. -/
noncomputable def calculate_upper_Darboux_sum (expression : Option (Node ℝ))
    (start e dx step : ℝ) : ℝ :=
  sumWhile (fun x => find_supremum expression x (x + dx) step) e dx start

/-- The `constexpr double step = 1E-05` fixed in `integrate` (integral.c)
for the extremum search. -/
noncomputable def integrationStep : ℝ := 1e-5

/-- The computation core of `integrate` (integral.c) after input validation
and expression parsing, composed with the sign application performed when
reporting (`log_integral_values` / `print_signed_value` in controls.c):
swap the endpoints and set the `minus` flag when `start > end`, partition
with `dx = (end - start) / refinement`, compute the three sums, and report
them negated exactly when `minus` was set.  The CPU-time instrumentation
(`calculate_with_cpu_time`) does not alter the computed values and is not
modelled. -/
noncomputable def integrateCore (expression : Option (Node ℝ)) (start e : ℝ)
    (refinement : ℕ) : ℝ × ℝ × ℝ :=
  let s := if start > e then e else start
  let e' := if start > e then start else e
  let dx := (e' - s) / (refinement : ℝ)
  let R := calculate_Riemann_sum expression s e' dx
  let L := calculate_lower_Darboux_sum expression s e' dx integrationStep
  let U := calculate_upper_Darboux_sum expression s e' dx integrationStep
  if start > e then (-R, -L, -U) else (R, L, U)

/-! Loop lemmas. -/

theorem extremumLoop_iter {α : Type} [LinearOrderedField α] [FloorRing α]
    (upd : α → α → α) (f : α → α) (e step x acc : α)
    (h1 : x ≤ e) (h2 : 0 < step) :
    extremumLoop upd f e step x acc
      = extremumLoop upd f e step (x + step) (upd acc (f x)) := by
  rw [extremumLoop]
  exact dif_pos ⟨h1, h2⟩

theorem extremumLoop_exit {α : Type} [LinearOrderedField α] [FloorRing α]
    (upd : α → α → α) (f : α → α) (e step x acc : α)
    (h : ¬(x ≤ e ∧ 0 < step)) :
    extremumLoop upd f e step x acc = acc := by
  rw [extremumLoop]
  exact dif_neg h

theorem sumWhile_iter {α : Type} [LinearOrderedField α] [FloorRing α]
    (g : α → α) (e dx x : α) (h1 : x < e) (h2 : 0 < dx) :
    sumWhile g e dx x = g x * dx + sumWhile g e dx (x + dx) := by
  rw [sumWhile]
  exact dif_pos ⟨h1, h2⟩

theorem sumWhile_exit {α : Type} [LinearOrderedField α] [FloorRing α]
    (g : α → α) (e dx x : α) (h : ¬(x < e ∧ 0 < dx)) :
    sumWhile g e dx x = 0 := by
  rw [sumWhile]
  exact dif_neg h

/-- Induction along a left-to-right grid walk with positive increment `dx`
whose continuation condition `B` only holds below the bound `e`: any
property propagated backwards one grid point at a time and holding wherever
the walk has stopped holds everywhere. -/
theorem whileInduction {α : Type} [LinearOrderedField α] [FloorRing α]
    (e dx : α) (hdx : 0 < dx) (B : α → Prop)
    (hB : ∀ x, B x → x ≤ e) (P : α → Prop)
    (base : ∀ x, ¬ B x → P x) (ind : ∀ x, B x → P (x + dx) → P x) :
    ∀ x, P x := by
  have key : ∀ n : ℕ, ∀ y : α, (⌈(e + dx - y) / dx⌉).toNat ≤ n → P y := by
    intro n
    induction n with
    | zero =>
      intro y hy
      by_cases hBy : B y
      · exfalso
        have hle := hB y hBy
        have hpos : (0:α) < (e + dx - y) / dx := div_pos (by linarith) hdx
        have := Int.ceil_pos.mpr hpos
        omega
      · exact base y hBy
    | succ n ih =>
      intro y hy
      by_cases hBy : B y
      · refine ind y hBy (ih (y + dx) ?_)
        have hle := hB y hBy
        have heq : (e + dx - (y + dx)) / dx = (e + dx - y) / dx - 1 := by
          field_simp
          ring
        have hpos : (0:α) < (e + dx - y) / dx := div_pos (by linarith) hdx
        have hceil := Int.ceil_pos.mpr hpos
        rw [heq, Int.ceil_sub_one]
        omega
      · exact base y hBy
  intro x
  exact key _ x le_rfl

/-- The infimum walk stays below the supremum walk when started from
accumulators in that order: both walks sample the same grid points. -/
theorem extremumLoop_min_le_max {α : Type} [LinearOrderedField α] [FloorRing α]
    (f : α → α) (e step : α) (hstep : 0 < step) :
    ∀ x, ∀ a b : α, a ≤ b →
      extremumLoop (fun acc v => if v < acc then v else acc) f e step x a
        ≤ extremumLoop (fun acc v => if v > acc then v else acc) f e step x b := by
  refine whileInduction e step hstep (fun x => x ≤ e) (fun _ h => h)
    (fun x => ∀ a b : α, a ≤ b → _ ≤ _) ?_ ?_
  · intro x hx a b hab
    rw [extremumLoop_exit _ _ _ _ _ _ (fun hc => hx hc.1),
      extremumLoop_exit _ _ _ _ _ _ (fun hc => hx hc.1)]
    exact hab
  · intro x hx ih a b hab
    rw [extremumLoop_iter _ _ _ _ _ _ hx hstep,
      extremumLoop_iter _ _ _ _ _ _ hx hstep]
    refine ih _ _ ?_
    by_cases h1 : f x < a <;> by_cases h2 : f x > b <;>
      simp [h1, h2] <;> linarith

/-- Accumulation is monotone in the sampled function. -/
theorem sumWhile_mono {α : Type} [LinearOrderedField α] [FloorRing α]
    (g1 g2 : α → α) (e dx : α)
    (hg : ∀ x, g1 x ≤ g2 x) : ∀ x, sumWhile g1 e dx x ≤ sumWhile g2 e dx x := by
  by_cases hdx : 0 < dx
  · refine whileInduction e dx hdx (fun x => x < e) (fun _ h => h.le)
      (fun x => _ ≤ _) ?_ ?_
    · intro x hx
      rw [sumWhile_exit _ _ _ _ (fun hc => hx hc.1),
        sumWhile_exit _ _ _ _ (fun hc => hx hc.1)]
    · intro x hx ih
      rw [sumWhile_iter _ _ _ _ hx hdx, sumWhile_iter _ _ _ _ hx hdx]
      have := mul_le_mul_of_nonneg_right (hg x) hdx.le
      linarith
  · intro x
    rw [sumWhile_exit _ _ _ _ (fun hc => hdx hc.2),
      sumWhile_exit _ _ _ _ (fun hc => hdx hc.2)]

/-- Accumulating a constant `c` from `e - k·dx` yields `c · (k·dx)`: the
loop runs exactly `k` times because, in exact real arithmetic, repeatedly
adding `dx` starting from `e - k·dx` reaches `e` after exactly `k` steps. -/
theorem sumWhile_const {α : Type} [LinearOrderedField α] [FloorRing α]
    (c e dx : α) (hdx : 0 < dx) :
    ∀ k : ℕ, ∀ x : α, x + k * dx = e →
      sumWhile (fun _ => c) e dx x = c * (k * dx) := by
  intro k
  induction k with
  | zero =>
    intro x hx
    rw [sumWhile_exit]
    · push_cast
      ring
    · push_cast at hx
      intro hc
      exact absurd hx (by linarith [hc.1])
  | succ k ih =>
    intro x hx
    push_cast at hx
    have hxe : x < e := by nlinarith [hdx, Nat.cast_nonneg (α := ℝ) k]
    rw [sumWhile_iter _ _ _ _ hxe hdx, ih (x + dx) (by push_cast; linarith)]
    push_cast
    ring

/-- A grid walk over a function that is constantly `c`, seeded with `c`,
returns `c`: the update `if v < acc then v else acc` (or the `>` variant)
never changes the accumulator. -/
theorem extremumLoop_const {α : Type} [LinearOrderedField α] [FloorRing α]
    (upd : α → α → α) (hupd : ∀ a, upd a a = a)
    (f : α → α) (c : α) (hf : ∀ y, f y = c) (e step : α) (hstep : 0 < step) :
    ∀ x, extremumLoop upd f e step x c = c := by
  refine whileInduction e step hstep (fun x => x ≤ e) (fun _ h => h)
    (fun x => _ = c) ?_ ?_
  · intro x hx
    exact extremumLoop_exit _ _ _ _ _ _ (fun hc => hx hc.1)
  · intro x hx ih
    rw [extremumLoop_iter _ _ _ _ _ _ hx hstep, hf, hupd]
    exact ih

/-- Both extremum searches sample exactly the same grid points with the same
seed `evaluate(expr, start)`, so the infimum estimate never exceeds the
supremum estimate. -/
theorem find_infimum_le_find_supremum (t : Node ℝ) (a b step : ℝ)
    (hstep : 0 < step) :
    find_infimum (some t) a b step ≤ find_supremum (some t) a b step := by
  show extremumLoop _ _ _ _ _ _ ≤ extremumLoop _ _ _ _ _ _
  exact extremumLoop_min_le_max (evaluate (some t)) b step hstep a _ _ le_rfl

/-- On an expression that evaluates to the constant `c` everywhere, the
infimum search returns `c`. -/
theorem find_infimum_of_const (expr : Option (Node ℝ)) (c : ℝ)
    (hc : ∀ x, evaluate expr x = c) (a b step : ℝ) (hstep : 0 < step) :
    find_infimum expr a b step = c := by
  match expr with
  | none =>
    have h0 := hc 0
    simp only [evaluate, evaluateWith] at h0
    simpa [find_infimum] using h0
  | some t =>
    show extremumLoop _ _ _ _ _ _ = c
    rw [hc a]
    exact extremumLoop_const _ (fun a => by simp) _ c hc b step hstep a

/-- On an expression that evaluates to the constant `c` everywhere, the
supremum search returns `c`. -/
theorem find_supremum_of_const (expr : Option (Node ℝ)) (c : ℝ)
    (hc : ∀ x, evaluate expr x = c) (a b step : ℝ) (hstep : 0 < step) :
    find_supremum expr a b step = c := by
  match expr with
  | none =>
    have h0 := hc 0
    simp only [evaluate, evaluateWith] at h0
    simpa [find_supremum] using h0
  | some t =>
    show extremumLoop _ _ _ _ _ _ = c
    rw [hc a]
    exact extremumLoop_const _ (fun a => by simp) _ c hc b step hstep a

/-! Claim theorems. -/

/-- C1: for every AST whose root is a Function node with child subtree `t`
and bound unary operation `g`, and every variable value `x`, `evaluate`
applied to that root and `x` returns `g(evaluate(t, x))` — the bound
operation is applied to the recursively evaluated single child, not to `x`
itself. -/
theorem C1_function_node_applies_bound_operation (name : String) (g : ℝ → ℝ)
    (t : Option (Node ℝ)) (x : ℝ) :
    evaluate (some (.NODE_FUNCTION name g t)) x = g (evaluate t x) := by
  simp [evaluate, evaluateWith]

/-- C5: for every non-null AST, every interval with `start < end`, every
refinement `n ≥ 1` (with `dx = (end - start) / n`) and every positive
extremum step, the lower Darboux sum is at most the upper Darboux sum. -/
theorem C5_lower_Darboux_le_upper_Darboux (t : Node ℝ) (start e step : ℝ)
    (n : ℕ) (h1 : start < e) (hn : 1 ≤ n) (hstep : 0 < step) :
    calculate_lower_Darboux_sum (some t) start e ((e - start) / n) step
      ≤ calculate_upper_Darboux_sum (some t) start e ((e - start) / n) step :=
  sumWhile_mono _ _ _ _
    (fun x => find_infimum_le_find_supremum t x (x + (e - start) / n) step hstep)
    start

/-- C5 witness: constant-zero integrand on `[0, 1]` with one subinterval and
unit extremum step. -/
theorem C5_lower_Darboux_le_upper_Darboux_witness :
    calculate_lower_Darboux_sum (some (Node.NODE_NUMBER 0)) 0 1
        ((1 - 0) / ((1:ℕ) : ℝ)) 1
      ≤ calculate_upper_Darboux_sum (some (Node.NODE_NUMBER 0)) 0 1
        ((1 - 0) / ((1:ℕ) : ℝ)) 1 :=
  C5_lower_Darboux_le_upper_Darboux (Node.NODE_NUMBER 0) 0 1 1 1
    (by norm_num) le_rfl (by norm_num)

/-- C6: whenever the caller supplies `start > end`, the engine swaps the
endpoints, computes the Riemann, lower Darboux and upper Darboux sums on
the ascending interval `[end, start]`, and reports each of the three sums
negated. -/
theorem C6_reversed_interval_reports_negated_sums (expr : Option (Node ℝ))
    (start e : ℝ) (refinement : ℕ) (h : start > e) :
    integrateCore expr start e refinement =
      (-(calculate_Riemann_sum expr e start ((start - e) / refinement)),
       -(calculate_lower_Darboux_sum expr e start ((start - e) / refinement)
           integrationStep),
       -(calculate_upper_Darboux_sum expr e start ((start - e) / refinement)
           integrationStep)) := by
  simp only [integrateCore, if_pos h]

/-- C6 witness: constant-one integrand on the reversed interval from 1 down
to 0 with one subinterval. -/
theorem C6_reversed_interval_reports_negated_sums_witness :
    integrateCore (some (Node.NODE_NUMBER 1)) 1 0 1 =
      (-(calculate_Riemann_sum (some (Node.NODE_NUMBER 1)) 0 1 ((1 - 0) / ((1:ℕ) : ℝ))),
       -(calculate_lower_Darboux_sum (some (Node.NODE_NUMBER 1)) 0 1
           ((1 - 0) / ((1:ℕ) : ℝ)) integrationStep),
       -(calculate_upper_Darboux_sum (some (Node.NODE_NUMBER 1)) 0 1
           ((1 - 0) / ((1:ℕ) : ℝ)) integrationStep)) :=
  C6_reversed_interval_reports_negated_sums (some (Node.NODE_NUMBER 1)) 1 0 1
    (by norm_num)

/-- C7: for every expression that evaluates to the constant `c`, every
interval `[a, b]` with `a < b`, every refinement `n ≥ 1` and every positive
extremum step, the Riemann sum, the lower Darboux sum and the upper Darboux
sum all equal `c * (b - a)` (exactly, in the real-number model). -/
theorem C7_constant_expression_sums (t : Option (Node ℝ)) (c a b step : ℝ)
    (n : ℕ) (hc : ∀ x, evaluate t x = c) (hab : a < b) (hn : 1 ≤ n)
    (hstep : 0 < step) :
    calculate_Riemann_sum t a b ((b - a) / n) = c * (b - a) ∧
    calculate_lower_Darboux_sum t a b ((b - a) / n) step = c * (b - a) ∧
    calculate_upper_Darboux_sum t a b ((b - a) / n) step = c * (b - a) := by
  have hnR : (0:ℝ) < (n : ℝ) := by
    exact_mod_cast Nat.lt_of_lt_of_le Nat.zero_lt_one hn
  have hdx : 0 < (b - a) / (n : ℝ) := div_pos (by linarith) hnR
  have hkey : a + (n : ℝ) * ((b - a) / (n : ℝ)) = b := by
    field_simp
  have hmul : c * ((n : ℝ) * ((b - a) / (n : ℝ))) = c * (b - a) := by
    rw [mul_div_assoc']
    rw [mul_comm (n : ℝ) (b - a), mul_div_assoc, div_self (ne_of_gt hnR)]
    ring
  refine ⟨?_, ?_, ?_⟩
  · show sumWhile _ _ _ _ = _
    have hg : (fun x => evaluate t x) = (fun _ : ℝ => c) := funext hc
    rw [hg, sumWhile_const c b _ hdx n a hkey, hmul]
  · show sumWhile _ _ _ _ = _
    have hg : (fun x => find_infimum t x (x + (b - a) / n) step)
        = (fun _ : ℝ => c) :=
      funext fun x => find_infimum_of_const t c hc x _ step hstep
    rw [hg, sumWhile_const c b _ hdx n a hkey, hmul]
  · show sumWhile _ _ _ _ = _
    have hg : (fun x => find_supremum t x (x + (b - a) / n) step)
        = (fun _ : ℝ => c) :=
      funext fun x => find_supremum_of_const t c hc x _ step hstep
    rw [hg, sumWhile_const c b _ hdx n a hkey, hmul]

/-- C7 witness: the spec's own example — the constant 5 on `[0, 2]` with one
subinterval gives all three sums `5 * (2 - 0) = 10`. -/
theorem C7_constant_expression_sums_witness :
    calculate_Riemann_sum (some (Node.NODE_NUMBER 5)) 0 2
        ((2 - 0) / ((1:ℕ) : ℝ)) = 5 * (2 - 0) ∧
    calculate_lower_Darboux_sum (some (Node.NODE_NUMBER 5)) 0 2
        ((2 - 0) / ((1:ℕ) : ℝ)) 1 = 5 * (2 - 0) ∧
    calculate_upper_Darboux_sum (some (Node.NODE_NUMBER 5)) 0 2
        ((2 - 0) / ((1:ℕ) : ℝ)) 1 = 5 * (2 - 0) :=
  C7_constant_expression_sums (some (Node.NODE_NUMBER 5)) 5 0 2 1 1
    (fun _ => by simp [evaluate, evaluateWith]) (by norm_num) le_rfl (by norm_num)

/-- C10: for every non-null AST and positive step, on a reversed
sub-interval (`end < start`) both extremum searches return
`evaluate(tree, start)`: the grid walk is empty and the seed sample is
returned unchanged. -/
theorem C10_reversed_subinterval_returns_seed (t : Node ℝ) (start e step : ℝ)
    (h : e < start) (hstep : 0 < step) :
    find_supremum (some t) start e step = evaluate (some t) start ∧
    find_infimum (some t) start e step = evaluate (some t) start := by
  constructor <;>
  · show extremumLoop _ _ _ _ _ _ = _
    exact extremumLoop_exit _ _ _ _ _ _ (fun hc => absurd hc.1 (not_le.mpr h))

/-- C10 witness: the constant 2 sampled at `start = 1` over the reversed
sub-interval down to 0. -/
theorem C10_reversed_subinterval_returns_seed_witness :
    find_supremum (some (Node.NODE_NUMBER 2)) 1 0 1
        = evaluate (some (Node.NODE_NUMBER 2)) 1 ∧
    find_infimum (some (Node.NODE_NUMBER 2)) 1 0 1
        = evaluate (some (Node.NODE_NUMBER 2)) 1 :=
  C10_reversed_subinterval_returns_seed (Node.NODE_NUMBER 2) 1 0 1
    (by norm_num) (by norm_num)

/-! Concrete token facts for the compiler claims. -/

theorem strtodModel_one : strtodModel "1" = some 1 := by
  rw [strtodModel, show strtodParts "1" = some (1, 0) from by decide]
  norm_num

theorem strtodModel_two : strtodModel "2" = some 2 := by
  rw [strtodModel, show strtodParts "2" = some (2, 0) from by decide]
  norm_num

theorem strtodModel_five : strtodModel "5" = some 5 := by
  rw [strtodModel, show strtodParts "5" = some (5, 0) from by decide]
  norm_num

theorem strtodModel_threePointFive : strtodModel "3.5" = some 3.5 := by
  rw [strtodModel, show strtodParts "3.5" = some (35, -1) from by decide]
  norm_num

theorem strtodModel_oneEMinusFive : strtodModel "1e-5" = some (1 / 100000) := by
  rw [strtodModel, show strtodParts "1e-5" = some (1, -5) from by decide]
  norm_num

theorem strtodModel_atSign : strtodModel "@" = none := by
  rw [strtodModel, show strtodParts "@" = none from by decide]
  rfl

theorem find_function_one : find_function "1" = none := by
  simp [find_function, FUNCTIONS, lookupFunction]

theorem find_function_two : find_function "2" = none := by
  simp [find_function, FUNCTIONS, lookupFunction]

theorem find_function_five : find_function "5" = none := by
  simp [find_function, FUNCTIONS, lookupFunction]

theorem find_function_threePointFive : find_function "3.5" = none := by
  simp [find_function, FUNCTIONS, lookupFunction]

theorem find_function_atSign : find_function "@" = none := by
  simp [find_function, FUNCTIONS, lookupFunction]

/-- Processing the token `"1"` always pushes the number node 1. -/
theorem parseStep_one (s : List (Node ℝ)) :
    parseStep s "1" = push s (.NODE_NUMBER 1) := by
  simp [parseStep, strpbrkSome, OPERATORS, find_function_one, strtodModel_one]

/-- Processing `n` copies of the token `"1"` from a stack with enough free
room pushes `n` number nodes. -/
theorem parseStack_ones (n : ℕ) : ∀ s : List (Node ℝ), n + s.length ≤ STACK_SIZE →
    (List.replicate n "1").foldlM parseStep s
      = .ok (List.replicate n (Node.NODE_NUMBER 1) ++ s) := by
  induction n with
  | zero => intro s h; rfl
  | succ n ih =>
    intro s h
    rw [List.replicate_succ, List.foldlM_cons, parseStep_one, push,
      if_neg (by simp [STACK_SIZE] at h ⊢; omega)]
    have hrec := ih (Node.NODE_NUMBER 1 :: s) (by simp; omega)
    simp only [Bind.bind, Except.bind, hrec, List.replicate_succ']
    simp [List.append_assoc]

/-! Claim theorems for the compiler. -/

/-- C2 counterexample: the token `"-3"` is not compiled to a Number node
with value −3.  As the sole token it makes `parse` pop the empty stack
(modelled stack underflow `exit`), and after two operands it builds a
subtraction Operator node. -/
theorem C2_counterexample_minus3_not_number :
    parse ["-3"] = .error .stackUnderflow ∧
    parse ["5", "2", "-3"] = .ok (some (.NODE_OPERATOR '-'
      (some (.NODE_NUMBER 5)) (some (.NODE_NUMBER 2)))) := by
  constructor
  · simp [parse, parseStack, parseStep, push, pop, strpbrkSome, OPERATORS,
      Except.map, Except.bind, Bind.bind, Except.pure, Pure.pure]
  · simp [parse, parseStack, parseStep, strtodModel_five, strtodModel_two,
      find_function_five, find_function_two, push, pop, STACK_SIZE,
      strpbrkSome, OPERATORS, tokenHead, Except.map, Except.bind, Bind.bind, Except.pure, Pure.pure]

/-- C2 amended: a token other than the variable symbol is classified as an
operator exactly when it contains at least one character of `{+,-,*,/,^}`
anywhere (the `strpbrk(OPERATORS, token)` test), and the Operator node then
built carries the token's first character as its symbol, with the first pop
becoming the right operand; a token with no operator character that is not
a recognized function name goes to the `strtod` branch, yielding a Number
node on success and the invalid-token failure otherwise.  Hence `"-3"`
behaves as a subtraction operator, not as the literal −3. -/
theorem C2_amended_operator_classification :
    (∀ (t : String) (l r : Node ℝ) (s : List (Node ℝ)), t ≠ "x" →
      strpbrkSome OPERATORS t = true →
      parseStep (r :: l :: s) t
        = push s (.NODE_OPERATOR (tokenHead t) (some l) (some r))) ∧
    (∀ (t : String) (s : List (Node ℝ)), t ≠ "x" →
      strpbrkSome OPERATORS t = false → find_function t = none →
      parseStep s t = match strtodModel t with
        | some v => push s (.NODE_NUMBER v)
        | none => .error (.invalidToken t)) := by
  constructor
  · intro t l r s hx hop
    simp [parseStep, hx, hop, pop, Except.bind, Bind.bind]
  · intro t s hx hop hf
    simp [parseStep, hx, hop, hf]

/-- C2 amended witness: `"-3"` after the operands 5 and 2 builds the
subtraction node `5 - 2`, and `"1"` with no operand goes to the literal
branch. -/
theorem C2_amended_operator_classification_witness :
    parseStep [Node.NODE_NUMBER 2, Node.NODE_NUMBER 5] "-3"
      = push [] (.NODE_OPERATOR (tokenHead "-3")
          (some (.NODE_NUMBER 5)) (some (.NODE_NUMBER 2))) ∧
    parseStep [] "1" = match strtodModel "1" with
      | some v => push [] (.NODE_NUMBER v)
      | none => .error (.invalidToken "1") :=
  ⟨C2_amended_operator_classification.1 "-3" (Node.NODE_NUMBER 5)
      (Node.NODE_NUMBER 2) [] (by decide) (by decide),
    C2_amended_operator_classification.2 "1" [] (by decide) (by decide)
      find_function_one⟩

/-- C3 counterexample: the spec's own malformed expression `x +` reaches
`pop` on an empty stack, and that code path calls `exit(1)` (modelled by
`ProcessExit`, every constructor of which carries exit status 1): the
failure terminates the host process instead of being returned to the
caller as a recoverable typed value. -/
theorem C3_counterexample_underflow_exits :
    parse ["x", "+"] = .error .stackUnderflow ∧
    ProcessExit.exitStatus .stackUnderflow = 1 := by
  constructor
  · simp [parse, parseStack, parseStep, push, pop, STACK_SIZE, strpbrkSome,
      OPERATORS, tokenHead, Except.map, Except.bind, Bind.bind, Except.pure, Pure.pure]
  · rfl

/-- C3 amended: each compile-time failure — an invalid token, popping the
empty stack, pushing past the 50-slot capacity — makes the compiler call
`exit(1)`, terminating the host process; no typed recoverable failure is
returned to the caller. -/
theorem C3_amended_failures_terminate_process :
    parse ["@"] = .error (.invalidToken "@") ∧
    parse ["x", "+"] = .error .stackUnderflow ∧
    parse (List.replicate 51 "1") = .error .stackOverflow ∧
    (∀ e : ProcessExit, ProcessExit.exitStatus e = 1) := by
  refine ⟨?_, ?_, ?_, fun e => rfl⟩
  · simp [parse, parseStack, parseStep, push, pop, strpbrkSome, OPERATORS,
      find_function_atSign, strtodModel_atSign, Except.map, Except.bind,
      Bind.bind, Except.pure, Pure.pure]
  · simp [parse, parseStack, parseStep, push, pop, STACK_SIZE, strpbrkSome,
      OPERATORS, tokenHead, Except.map, Except.bind, Bind.bind, Except.pure, Pure.pure]
  · rw [parse, parseStack, show (51 : ℕ) = 50 + 1 from rfl,
      List.replicate_succ', List.foldlM_append,
      parseStack_ones 50 [] (by simp [STACK_SIZE])]
    simp [parseStep_one, push, STACK_SIZE, Except.map, Except.bind, Bind.bind, Except.pure, Pure.pure]

/-- C4 counterexample: the two-token sequence `1 2` leaves two nodes on the
stack, yet `parse` returns the bottom node (the Number 1) instead of
failing with a TrailingOperands error. -/
theorem C4_counterexample_trailing_operands_ignored :
    parseStack ["1", "2"] = .ok [Node.NODE_NUMBER 2, Node.NODE_NUMBER 1] ∧
    parse ["1", "2"] = .ok (some (Node.NODE_NUMBER 1)) := by
  have hstack : parseStack ["1", "2"] = .ok [Node.NODE_NUMBER 2, Node.NODE_NUMBER 1] := by
    simp [parseStack, parseStep, strtodModel_one, strtodModel_two,
      find_function_one, find_function_two, push, STACK_SIZE, strpbrkSome,
      OPERATORS, Except.bind, Bind.bind, Except.pure, Pure.pure]
  exact ⟨hstack, by rw [parse, hstack]; rfl⟩

/-- C4 amended: whatever the token loop leaves on the stack, `parse`
returns the bottom slot `stack.data[0]` — the unique node when exactly one
remains, and otherwise the first remaining node pushed, silently discarding
the nodes above it; no TrailingOperands check exists. -/
theorem C4_amended_returns_bottom_slot (tokens : List String) (s : List (Node ℝ))
    (h : parseStack tokens = .ok s) : parse tokens = .ok s.getLast? := by
  rw [parse, h]
  rfl

/-- C4 amended witness: on `1 2` the loop leaves two nodes and `parse`
returns the bottom one. -/
theorem C4_amended_returns_bottom_slot_witness :
    parse ["1", "2"]
      = .ok ([Node.NODE_NUMBER 2, Node.NODE_NUMBER 1].getLast?) :=
  C4_amended_returns_bottom_slot ["1", "2"]
    [Node.NODE_NUMBER 2, Node.NODE_NUMBER 1]
    (by simp [parseStack, parseStep, strtodModel_one, strtodModel_two,
      find_function_one, find_function_two, push, STACK_SIZE, strpbrkSome,
      OPERATORS, Except.bind, Bind.bind, Except.pure, Pure.pure])

/-- C8 counterexample: `"1e-5"` is a floating-point literal (the `strtod`
model parses it to `1/100000`), yet compiling the one-token expression
fails — the token contains `'-'`, so it is classified as an operator and
`parse` pops the empty stack — so no AST carrying the literal's value is
produced. -/
theorem C8_counterexample_exponent_literal_fails :
    strtodModel "1e-5" = some (1 / 100000) ∧
    parse ["1e-5"] = .error .stackUnderflow := by
  refine ⟨strtodModel_oneEMinusFive, ?_⟩
  simp [parse, parseStack, parseStep, push, pop, strpbrkSome, OPERATORS,
    Except.map, Except.bind, Bind.bind, Except.pure, Pure.pure]

/-- C8 amended: for every literal token free of the characters
`{+,-,*,/,^}` that is not the variable symbol and not a recognized
function name, and that `strtod` fully parses to the value `v`, compiling
the one-token expression yields a Number node storing `v` verbatim, and
evaluating it at any variable value returns exactly `v`. -/
theorem C8_amended_plain_literal_roundtrip (t : String) (v x : ℝ)
    (hx : t ≠ "x") (hop : strpbrkSome OPERATORS t = false)
    (hf : find_function t = none) (hv : strtodModel t = some v) :
    parse [t] = .ok (some (.NODE_NUMBER v)) ∧
    evaluate (some (.NODE_NUMBER v)) x = v := by
  constructor
  · simp [parse, parseStack, parseStep, hx, hop, hf, hv, push, STACK_SIZE,
      Except.map, Except.bind, Bind.bind, Except.pure, Pure.pure]
  · simp [evaluate, evaluateWith]

/-- C8 amended witness: the literal `"3.5"` compiles to the Number node
3.5 and evaluates to 3.5 at the variable value 0. -/
theorem C8_amended_plain_literal_roundtrip_witness :
    parse ["3.5"] = .ok (some (.NODE_NUMBER 3.5)) ∧
    evaluate (some (.NODE_NUMBER 3.5)) 0 = 3.5 :=
  C8_amended_plain_literal_roundtrip "3.5" 3.5 0 (by decide) (by decide)
    find_function_threePointFive strtodModel_threePointFive

end NumericalIntegrator
